import Mathlib

/-!
Verification of the KirkwallCalendar date-normalization and aggregation core.

The JavaScript source operates on strings (rows of a CSV with a `Date` field),
normalizes loosely formatted `DD/MM/YYYY`-like date strings, and aggregates the
results by year and by day-of-year.  This file gives a shallow embedding of that
logic:

* strings are `List Char` (wrapped in `String` at the API boundary);
* JavaScript `parseInt` is modelled including sign handling, the `0x` hex form,
  leading-whitespace skipping and trailing-garbage truncation, with `none`
  standing for `NaN`;
* `new Date(year, month, day)` is modelled by civil (proleptic-Gregorian)
  calendar arithmetic on day numbers relative to 1970-01-01.  A crucial
  semantic fact embedded here: with finite numeric arguments this constructor
  never yields an invalid date — out-of-range fields roll over
  (`new Date(2024, 1, 31)` is 2024-03-02) — so `isNaN(date.getTime())` only
  fires when a field is `NaN` or the timestamp leaves the ±8.64e15 ms range
  (±100000000 days).  Years 0–99 are mapped to 1900–1999, as in JS.
  Integer division in the model is written with `/` and `%` on `Int`
  (Euclidean division), which coincides with the floor division used by the
  ECMAScript `MakeDay` algorithm since every divisor involved is positive.
  Times of day, time zones and DST are irrelevant to the modelled code paths
  and are modelled as UTC (every date is a midnight instant).
-/

namespace Kirkwall

/-- Common ASCII whitespace, the characters relevant to `String.prototype.trim`
for the inputs this program sees. -/
def isSpaceChar (c : Char) : Bool :=
  decide (c = ' ') || decide (c = '\t') || decide (c = '\n') || decide (c = '\r')

/-- JavaScript `s.trim()`: strip leading and trailing whitespace. -/
def jsTrim (s : List Char) : List Char :=
  ((s.dropWhile isSpaceChar).reverse.dropWhile isSpaceChar).reverse

/-- ASCII decimal digit test. -/
def isDigitCh (c : Char) : Bool :=
  decide (48 ≤ c.toNat) && decide (c.toNat ≤ 57)

/-- Value of an ASCII digit character. -/
def digitVal (c : Char) : Nat := c.toNat - 48

/-- Value of a list of decimal digit characters, most significant first. -/
def digitsVal (ds : List Char) : Nat := ds.foldl (fun acc c => 10 * acc + digitVal c) 0

/-- ASCII hexadecimal digit test. -/
def isHexDigitCh (c : Char) : Bool :=
  isDigitCh c || (decide (97 ≤ c.toNat) && decide (c.toNat ≤ 102)) ||
    (decide (65 ≤ c.toNat) && decide (c.toNat ≤ 70))

/-- Value of an ASCII hexadecimal digit character. -/
def hexVal (c : Char) : Nat :=
  if isDigitCh c then c.toNat - 48 else if decide (97 ≤ c.toNat) then c.toNat - 87 else c.toNat - 55

/-- Value of a list of hexadecimal digit characters, most significant first. -/
def hexDigitsVal (ds : List Char) : Nat := ds.foldl (fun acc c => 16 * acc + hexVal c) 0

/-- Does the string carry a `0x`/`0X` marker, making `parseInt` parse hex? -/
def hexMarked : List Char → Bool
  | c0 :: c1 :: _ => decide (c0 = '0') && (decide (c1 = 'x') || decide (c1 = 'X'))
  | _ => false

/-- Unsigned part of JavaScript `parseInt(s)`: hex after a `0x` marker, decimal
otherwise; `none` models `NaN` (no digits). Trailing non-digits are ignored. -/
def parseIntDec (sign : Int) (s : List Char) : Option Int :=
  if hexMarked s then
    let hs := (s.drop 2).takeWhile isHexDigitCh
    if hs = [] then none else some (sign * (hexDigitsVal hs : Int))
  else
    let ds := s.takeWhile isDigitCh
    if ds = [] then none else some (sign * (digitsVal ds : Int))

/-- JavaScript `parseInt(s)` (radix auto-detection, base 10 or 16). -/
def parseIntJS (s : List Char) : Option Int :=
  match s.dropWhile isSpaceChar with
  | [] => parseIntDec 1 []
  | c :: rest =>
    if c = '-' then parseIntDec (-1) rest
    else if c = '+' then parseIntDec 1 rest
    else parseIntDec 1 (c :: rest)

/-- JavaScript `s.split(sep)` for a single-character separator. -/
def splitOnChar (sep : Char) : List Char → List (List Char)
  | [] => [[]]
  | c :: rest =>
    if c = sep then [] :: splitOnChar sep rest
    else
      match splitOnChar sep rest with
      | h :: t => (c :: h) :: t
      | [] => [[c]]

/-- Match of the repair regex `(\d{2})\/(\d{2})(\d{4})` at the head of the
string: two digits, a slash, then six digits.  On success, returns the
replacement `$1/$2/$3` (the missing slash inserted) and the unconsumed rest. -/
def matchRunTogether : List Char → Option (List Char × List Char)
  | a :: b :: c :: d :: e :: f :: g :: h :: i :: rest =>
    if isDigitCh a && isDigitCh b && decide (c = '/') && isDigitCh d && isDigitCh e &&
        isDigitCh f && isDigitCh g && isDigitCh h && isDigitCh i then
      some ([a, b, '/', d, e, '/', f, g, h, i], rest)
    else none
  | _ => none

/-- The repair `dateStr.replace(/(\d{2})\/(\d{2})(\d{4})/, '$1/$2/$3')`
(App.jsx line 48 and its duplicates): the leftmost match, if any, gets the
missing separator inserted; the regex is not global, so only the first match
is replaced. -/
def cleanDate : List Char → List Char
  | [] => []
  | c :: rest =>
    match matchRunTogether (c :: rest) with
    | some (pre, post) => pre ++ post
    | none => c :: cleanDate rest

/-- Test and split for the two-digit-year shape `/^\d{2}\/\d{2}\/\d{2}$/`;
on success returns the three components with `16` prepended to the year,
exactly as App.jsx lines 52-55 build them. -/
def shortYearComponents : List Char → Option (List Char × List Char × List Char)
  | [a, b, s1, c, d, s2, e, f] =>
    if isDigitCh a && isDigitCh b && decide (s1 = '/') && isDigitCh c && isDigitCh d &&
        decide (s2 = '/') && isDigitCh e && isDigitCh f then
      some ([a, b], [c, d], ['1', '6', e, f])
    else none
  | _ => none

/-- Component extraction (App.jsx lines 51-58): the short-year split when the
cleaned string has the `DD/MM/YY` shape, otherwise `split('/')`. -/
def dateComponents (cleaned : List Char) : List (List Char) :=
  match shortYearComponents cleaned with
  | some (d, m, y) => [d, m, y]
  | none => splitOnChar '/' cleaned

/-- Day number (days since 1970-01-01) of the proleptic-Gregorian date
`y-m-d` with `m` in 1..12, by the standard civil-from-days algorithm.
`/` on `Int` is Euclidean division, which is floor division here because
every divisor is positive. -/
def daysFromCivil (y m d : Int) : Int :=
  let y' := if m ≤ 2 then y - 1 else y
  let era := y' / 400
  let yoe := y' - era * 400
  let mp := (m + 9) % 12
  let doy := (153 * mp + 2) / 5 + d - 1
  let doe := yoe * 365 + yoe / 4 - yoe / 100 + doy
  era * 146097 + doe - 719468

/-- Inverse of `daysFromCivil`: the civil date `(year, month, day)` of a day
number. -/
def civilFromDays (z : Int) : Int × Int × Int :=
  let z' := z + 719468
  let era := z' / 146097
  let doe := z' - era * 146097
  let yoe := (doe - doe / 1460 + doe / 36524 - doe / 146096) / 365
  let y := yoe + era * 400
  let doy := doe - (365 * yoe + yoe / 4 - yoe / 100)
  let mp := (5 * doy + 2) / 153
  let d := doy - (153 * mp + 2) / 5 + 1
  let m := if mp < 10 then mp + 3 else mp - 9
  (if m ≤ 2 then y + 1 else y, m, d)

/-- The ECMAScript two-digit-year quirk of the `Date(year, ...)` constructor:
years 0..99 denote 1900..1999. -/
def jsYearAdjust (y : Int) : Int := if 0 ≤ y ∧ y ≤ 99 then y + 1900 else y

/-- Day number of `new Date(y, m0, d)` (`m0` is the 0-indexed month as passed
to the constructor).  Out-of-range months roll into adjacent years and
out-of-range days roll through the calendar — this constructor never rejects
finite arguments, it only rolls them over. -/
def jsMakeDay (y m0 d : Int) : Int :=
  let yy := jsYearAdjust y
  let tm := yy * 12 + m0
  daysFromCivil (tm / 12) (tm % 12 + 1) 1 + (d - 1)

/-- Model of `!isNaN(new Date(y, m0, d).getTime())`: with numeric (non-`NaN`)
arguments the only failure mode is the ±100000000-day `TimeClip` range limit;
rolled-over dates inside the range are perfectly valid `Date` objects. -/
def jsDateValid (y m0 d : Int) : Bool :=
  decide (-100000000 ≤ jsMakeDay y m0 d) && decide (jsMakeDay y m0 d ≤ 100000000)

/-- Model of the `getDayOfYear` helper of BarChartsView.jsx / main-overlay.jsx
(1-based ordinal): `floor((date - new Date(date.getFullYear(), 0, 0)) / MS_PER_DAY)`,
applied to a date given by its day number. -/
def getDayOfYear (n : Int) : Int :=
  n - jsMakeDay (civilFromDays n).1 0 0

/-- Model of the `getDayOfYear` helper of YearCalendar.jsx, which subtracts one
more (0-based index). -/
def getDayOfYearCal (n : Int) : Int := getDayOfYear n - 1

/-- Rejection taxonomy of the normalizer (spec section 7). -/
inductive RejectReason
  | incomplete
  | invalid_date
deriving DecidableEq

/-- Outcome of the shared row-parsing pipeline (App.jsx lines 36-69, duplicated
verbatim in BarChartsView.jsx lines 43-75): the three component strings exactly
as destructured, plus their `parseInt` values. -/
structure ParsedRow where
  dayS : List Char
  monthS : List Char
  yearS : List Char
  day : Int
  month : Int
  year : Int
deriving DecidableEq

/-- The shared parsing pipeline: trim; reject empty or `?`-bearing strings as
`incomplete`; repair the run-together malformation; expand two-digit years with
the `16` century assumption; split into components (a missing component is
`undefined`, whose `parseInt` is `NaN`); reject as `invalid_date` exactly when
`isNaN(new Date(year, month-1, day).getTime())`. -/
def parseRow (raw : String) : Except RejectReason ParsedRow :=
  let s := jsTrim raw.data
  if s = [] ∨ '?' ∈ s then .error .incomplete
  else
    let comps := dateComponents (cleanDate s)
    match comps[0]?, comps[1]?, comps[2]? with
    | some dS, some mS, some yS =>
      match parseIntJS dS, parseIntJS mS, parseIntJS yS with
      | some d, some m, some y =>
        if jsDateValid y (m - 1) d then .ok ⟨dS, mS, yS, d, m, y⟩
        else .error .invalid_date
      | _, _, _ => .error .invalid_date
    | _, _, _ => .error .invalid_date

/-- JavaScript `s.padStart(2, '0')`. -/
def padStart2 (s : List Char) : List Char :=
  if s.length < 2 then List.replicate (2 - s.length) '0' ++ s else s

/-- The canonical ISO string App.jsx line 72 builds from the component strings:
`year + '-' + month.padStart(2,'0') + '-' + day.padStart(2,'0')`. -/
def isoDateOf (p : ParsedRow) : List Char :=
  p.yearS ++ '-' :: (padStart2 p.monthS ++ '-' :: padStart2 p.dayS)

/-- The spec's NormalizedDate: the `parseInt` values of the three components
plus the canonical ISO string. -/
structure NormalizedDate where
  year : Int
  month : Int
  day : Int
  iso : List Char
deriving DecidableEq

/-- The spec's `normalize` contract, as implemented by the App.jsx row loop:
either a NormalizedDate or a rejection reason. -/
def normalize (raw : String) : Except RejectReason NormalizedDate :=
  match parseRow raw with
  | .ok p => .ok ⟨p.year, p.month, p.day, isoDateOf p⟩
  | .error e => .error e

/-- State of the App.jsx ingestion loop: the `dateSet` used for deduplication
and the events accumulated so far (in push order, each event being the year
bucket together with the ISO date that App.jsx stores). -/
structure AppState where
  dateSet : List (List Char)
  events : List (Int × List Char)
deriving DecidableEq

/-- One iteration of the App.jsx `meetingsData.forEach` body: skip bad rows,
skip ISO dates already in `dateSet`, otherwise record the event. -/
def appStep (st : AppState) (raw : String) : AppState :=
  match normalize raw with
  | .ok nd =>
    if nd.iso ∈ st.dateSet then st
    else ⟨st.dateSet ++ [nd.iso], st.events ++ [(nd.year, nd.iso)]⟩
  | .error _ => st

/-- The `eventsByYear` computation of App.jsx, flattened to the ordered list of
admitted `(year, iso)` events (App.jsx buckets the same events into an object
keyed by year; the list records exactly the pushes it performs). -/
def eventsByYear (rows : List String) : List (Int × List Char) :=
  (rows.foldl appStep ⟨[], []⟩).events

/-- Day-of-year of one row along the BarChartsView.jsx pipeline
(`getDayOfYear(date)` applied to the constructed — possibly rolled-over —
`Date`), or `none` for a skipped row. -/
def rowDayOfYear (raw : String) : Option Int :=
  match parseRow raw with
  | .ok p => some (getDayOfYear (jsMakeDay p.year (p.month - 1) p.day))
  | .error _ => none

/-- `counts.set(k, (counts.get(k) || 0) + 1)` on a map modelled as a function
with 0 for absent keys. -/
def bump (f : Int → Nat) (k : Int) : Int → Nat :=
  fun j => if j = k then f j + 1 else f j

/-- One iteration of the BarChartsView.jsx day-of-year counting. -/
def bcStep (acc : Int → Nat) (raw : String) : Int → Nat :=
  match rowDayOfYear raw with
  | some k => bump acc k
  | none => acc

/-- The non-deduplicating day-of-year counting of BarChartsView.jsx
(lines 87-89): every valid row increments its day's count. -/
def dayOfYearCountsBC (rows : List String) : Int → Nat :=
  rows.foldl bcStep (fun _ => 0)

/-- Year of one row along the BarChartsView.jsx pipeline, or `none` for a
skipped row. -/
def rowYear (raw : String) : Option Int :=
  match parseRow raw with
  | .ok p => some p.year
  | .error _ => none

/-- Years of the valid rows, in order. -/
def validYears (rows : List String) : List Int := rows.filterMap rowYear

/-- The `minYear`/`maxYear` tracking of BarChartsView.jsx lines 77-79
(`Infinity` start modelled by `none`). -/
def minMaxFold (ys : List Int) : Option (Int × Int) :=
  ys.foldl
    (fun acc y =>
      match acc with
      | none => some (y, y)
      | some (lo, hi) => some ((if y < lo then y else lo), (if hi < y then y else hi)))
    none

/-- The `yearCounts` map of BarChartsView.jsx line 82. -/
def yearCountsFn (ys : List Int) : Int → Nat :=
  ys.foldl bump (fun _ => 0)

/-- All integers from `lo` to `hi` inclusive. -/
def intRangeList (lo hi : Int) : List Int :=
  (List.range (hi + 1 - lo).toNat).map (fun i => lo + (i : Int))

/-- The dense `allYears` table of BarChartsView.jsx lines 96-105: one entry per
year from the minimum to the maximum observed, with `yearCounts.get(year) || 0`
as the count. -/
def allYearsTable (ys : List Int) : List (Int × Nat) :=
  match minMaxFold ys with
  | none => []
  | some (lo, hi) => (intRangeList lo hi).map (fun y => (y, yearCountsFn ys y))

/-- The by-year chart data of BarChartsView.jsx, from raw rows. -/
def yearData (rows : List String) : List (Int × Nat) :=
  allYearsTable (validYears rows)

/-- Day-of-year of one row along the main-overlay.jsx pipeline, which filters
by the inclusive `[minYear, maxYear]` range after `parseInt(year)` and before
the validity check; `none` for a skipped or filtered row.  (A row whose year
fails to parse makes both range comparisons false in JS and is then rejected
by the date-validity check; it is `none` here either way.) -/
def overlayDay (minYear maxYear : Int) (raw : String) : Option Int :=
  let s := jsTrim raw.data
  if s = [] ∨ '?' ∈ s then none
  else
    let comps := dateComponents (cleanDate s)
    match comps[0]?, comps[1]?, comps[2]? with
    | some dS, some mS, some yS =>
      match parseIntJS yS with
      | some y =>
        if y < minYear ∨ maxYear < y then none
        else
          match parseIntJS dS, parseIntJS mS with
          | some d, some m =>
            if jsDateValid y (m - 1) d then some (getDayOfYear (jsMakeDay y (m - 1) d))
            else none
          | _, _ => none
      | none => none
    | _, _, _ => none

/-- One iteration of the main-overlay.jsx day-of-year counting. -/
def overlayStep (minYear maxYear : Int) (acc : Int → Nat) (raw : String) : Int → Nat :=
  match overlayDay minYear maxYear raw with
  | some k => bump acc k
  | none => acc

/-- The `dayOfYearCounts` map of main-overlay.jsx lines 91-144. -/
def dayOfYearCounts (minYear maxYear : Int) (rows : List String) : Int → Nat :=
  rows.foldl (overlayStep minYear maxYear) (fun _ => 0)

/-- The `isLeapYear` helper of YearCalendar.jsx; JS `%` is truncated division
remainder, i.e. `Int.tmod`. -/
def isLeapYear (y : Int) : Bool :=
  (decide (Int.tmod y 4 = 0) && decide (¬ Int.tmod y 100 = 0)) || decide (Int.tmod y 400 = 0)

/-- Length of a month in the proleptic-Gregorian calendar. -/
def daysInMonth (y m : Int) : Int :=
  if m = 2 then (if isLeapYear y then 29 else 28)
  else if m = 4 ∨ m = 6 ∨ m = 9 ∨ m = 11 then 30
  else 31

/-- Model of `new Date(isoString)` for the date-only `YYYY-MM-DD` shape the
app produces: the engine parses it as a UTC date and yields an invalid date
unless the fields denote a real calendar date (`new Date("2023-02-31")` is
invalid — the string constructor, unlike the numeric one, does not roll over). -/
def jsParseISO : List Char → Option (Int × Int × Int)
  | [y1, y2, y3, y4, h1, m1, m2, h2, d1, d2] =>
    if isDigitCh y1 && isDigitCh y2 && isDigitCh y3 && isDigitCh y4 && decide (h1 = '-') &&
        isDigitCh m1 && isDigitCh m2 && decide (h2 = '-') && isDigitCh d1 && isDigitCh d2 then
      let y : Int := (digitsVal [y1, y2, y3, y4] : Nat)
      let m : Int := (digitsVal [m1, m2] : Nat)
      let d : Int := (digitsVal [d1, d2] : Nat)
      if 1 ≤ m ∧ m ≤ 12 ∧ 1 ≤ d ∧ d ≤ daysInMonth y m then some (y, m, d) else none
    else none
  | _ => none

/-- One iteration of the YearCalendar.jsx `colorMaps` loop body (lines 143-153)
for the year-`year` table: parse the entry's date string, admit it only when it
is a valid date whose year equals the bucket key, and set its (0-based) day
index to the entry's color.  `getFullYear` is read in the UTC model, where it
is the ISO year of the parsed date. -/
def colorMapStep (year : Int) (acc : Int → Option (List Char)) (e : List Char × List Char) :
    Int → Option (List Char) :=
  match jsParseISO e.1 with
  | some (y, m, d) =>
    if y = year then
      fun j => if j = getDayOfYearCal (daysFromCivil y m d) then some e.2 else acc j
    else acc
  | none => acc

/-- The per-year color map of YearCalendar.jsx `colorMaps` (lines 136-159),
as a function from day index to the color stored there. -/
def colorMapFor (year : Int) (entries : List (List Char × List Char)) :
    Int → Option (List Char) :=
  entries.foldl (colorMapStep year) (fun _ => none)

/-- Fill of a day cell in the day-of-year overlay: either the fixed default
background color or red with a computed opacity (the `rgba(255, 0, 0, o)`
string of the source). -/
inductive CellFill
  | defaultColor
  | red (opacity : ℚ)
deriving DecidableEq

/-- The `cellColors` computation of DayOfYearOverlay (part_002 lines 107-126
and part_003 lines 138-174, identical logic): a day with a positive count is
red with opacity `min(count * opacityPerOccurrence, 1.0)`, any other day gets
the default background. -/
def cellColors (counts : Int → Nat) (opacityPerOccurrence : ℚ) (dayOfYear : Int) : CellFill :=
  if 0 < counts dayOfYear then
    .red (min ((counts dayOfYear : ℚ) * opacityPerOccurrence) 1)
  else .defaultColor

/-! ## Helper lemmas -/

/-- `bump` twice at the same key doubles that key's count, starting from zero. -/
lemma bump_twice_eq (k j : Int) :
    bump (bump (fun _ => 0) k) k j = 2 * bump (fun _ => 0) k j := by
  unfold bump
  split_ifs <;> simp

/-- Two overlay-counting steps commute. -/
lemma overlayStep_comm (mn mx : Int) (acc : Int → Nat) (a b : String) :
    overlayStep mn mx (overlayStep mn mx acc a) b =
      overlayStep mn mx (overlayStep mn mx acc b) a := by
  cases h1 : overlayDay mn mx a <;> cases h2 : overlayDay mn mx b <;>
    simp only [overlayStep, h1, h2] <;> try rfl
  funext j
  simp only [bump]
  split_ifs <;> omega

/-- Folding the overlay-counting step is invariant under permutation of the rows. -/
lemma foldl_overlayStep_perm (mn mx : Int) {l1 l2 : List String} (h : l1.Perm l2) :
    ∀ acc : Int → Nat, l1.foldl (overlayStep mn mx) acc = l2.foldl (overlayStep mn mx) acc := by
  induction h with
  | nil => intro acc; rfl
  | cons x _ ih => intro acc; simp only [List.foldl_cons]; exact ih _
  | swap x y l => intro acc; simp only [List.foldl_cons]; rw [overlayStep_comm]
  | trans _ _ ih1 ih2 => intro acc; rw [ih1 acc, ih2 acc]

/-! ## The claims -/

/-- C1 (code_bug demonstration): the spec says normalization rejects dates that
do not exist on the calendar (`31/02/2024`, `29/02/2023`) with reason
`invalid_date`, and App.jsx even comments "Validate the date is valid" — but the
`isNaN(new Date(y, m-1, d).getTime())` check it uses never fires for numeric
components, because the JS `Date` constructor rolls invalid dates over instead
of producing an invalid date.  Both supposedly rejected inputs are therefore
accepted, and the first one is admitted into the aggregation with the
impossible ISO string `2024-02-31`. -/
theorem c1_invalid_dates_admitted :
    normalize "31/02/2024" = .ok ⟨2024, 2, 31, "2024-02-31".data⟩ ∧
    normalize "29/02/2023" = .ok ⟨2023, 2, 29, "2023-02-29".data⟩ ∧
    eventsByYear ["31/02/2024"] = [(2024, "2024-02-31".data)] := by
  refine ⟨?_, ?_, ?_⟩ <;> rfl

/-- C8: an input whose trimmed form is empty or contains the `?` placeholder is
rejected as `incomplete`, before any parsing or calendar validation — never as
`invalid_date`. -/
theorem c8_placeholder_incomplete (s : String)
    (h : jsTrim s.data = [] ∨ '?' ∈ jsTrim s.data) :
    normalize s = .error .incomplete := by
  simp only [normalize, parseRow]
  rw [if_pos h]

theorem c8_witness : normalize "  ? " = .error .incomplete :=
  c8_placeholder_incomplete "  ? " (Or.inr (by decide))

/-- C10: in the day-of-year overlay's `cellColors`, for every counts map and
every non-negative `opacityPerOccurrence`, a day (in the rendered 1..366 range)
with count 0 keeps the fixed default background, and a day with positive count
is red with opacity `min(count * opacityPerOccurrence, 1.0)`, which never
exceeds 1. -/
theorem c10_overlay_fill (counts : Int → Nat) (opp : ℚ) (hopp : 0 ≤ opp)
    (day : Int) (hlo : 1 ≤ day) (hhi : day ≤ 366) :
    (counts day = 0 → cellColors counts opp day = CellFill.defaultColor) ∧
    (0 < counts day →
      cellColors counts opp day = CellFill.red (min ((counts day : ℚ) * opp) 1) ∧
      min ((counts day : ℚ) * opp) 1 ≤ 1) := by
  constructor
  · intro h
    simp [cellColors, h]
  · intro h
    refine ⟨?_, min_le_right _ _⟩
    simp only [cellColors]
    rw [if_pos h]

theorem c10_witness :
    ((fun k : Int => if k = 5 then 30 else 0) 5 = 0 →
      cellColors (fun k : Int => if k = 5 then 30 else 0) (3 / 20) 5 = CellFill.defaultColor) ∧
    (0 < (fun k : Int => if k = 5 then 30 else 0) 5 →
      cellColors (fun k : Int => if k = 5 then 30 else 0) (3 / 20) 5 =
        CellFill.red (min (((fun k : Int => if k = 5 then 30 else 0) 5 : ℚ) * (3 / 20)) 1) ∧
      min (((fun k : Int => if k = 5 then 30 else 0) 5 : ℚ) * (3 / 20)) 1 ≤ 1) :=
  c10_overlay_fill (fun k : Int => if k = 5 then 30 else 0) (3 / 20) (by norm_num) 5
    (by norm_num) (by norm_num)

/-- C2: when the same row (hence the same normalized ISO date) appears twice,
the calendar-heatmap ingestion path of App.jsx admits only the first
occurrence — the duplicate contributes exactly 1 event, silently — while the
non-deduplicating day-of-year count of BarChartsView.jsx counts both
occurrences, so the duplicate contributes exactly 2 to its day. -/
theorem c2_dedup_vs_count (r : String) (nd : NormalizedDate) (h : normalize r = .ok nd) :
    eventsByYear [r, r] = eventsByYear [r] ∧
    (eventsByYear [r]).length = 1 ∧
    (∀ k, dayOfYearCountsBC [r, r] k = 2 * dayOfYearCountsBC [r] k) ∧
    (∃ k, dayOfYearCountsBC [r] k = 1) := by
  have hp : ∃ p : ParsedRow, parseRow r = .ok p := by
    unfold normalize at h
    cases hq : parseRow r with
    | ok p => exact ⟨p, rfl⟩
    | error e => rw [hq] at h; cases h
  obtain ⟨p, hp⟩ := hp
  have hnd : normalize r = .ok ⟨p.year, p.month, p.day, isoDateOf p⟩ := by
    unfold normalize
    rw [hp]
  have hday : rowDayOfYear r = some (getDayOfYear (jsMakeDay p.year (p.month - 1) p.day)) := by
    unfold rowDayOfYear
    rw [hp]
  refine ⟨?_, ?_, ?_, ?_⟩
  · simp [eventsByYear, appStep, hnd]
  · simp [eventsByYear, appStep, hnd]
  · intro k
    simp only [dayOfYearCountsBC, List.foldl_cons, List.foldl_nil, bcStep, hday]
    exact bump_twice_eq _ k
  · refine ⟨getDayOfYear (jsMakeDay p.year (p.month - 1) p.day), ?_⟩
    simp [dayOfYearCountsBC, bcStep, hday, bump]

theorem c2_witness :
    eventsByYear ["05/06/1671", "05/06/1671"] = eventsByYear ["05/06/1671"] ∧
    (eventsByYear ["05/06/1671"]).length = 1 ∧
    (∀ k, dayOfYearCountsBC ["05/06/1671", "05/06/1671"] k =
      2 * dayOfYearCountsBC ["05/06/1671"] k) ∧
    (∃ k, dayOfYearCountsBC ["05/06/1671"] k = 1) :=
  c2_dedup_vs_count "05/06/1671" ⟨1671, 6, 5, "1671-06-05".data⟩ (by rfl)

/-- C9: the by-day-of-year aggregation of main-overlay.jsx is order-invariant —
permuting the input rows leaves the counts map unchanged (same keys, same
counts), for every year-range filter. -/
theorem c9_perm_invariant (minY maxY : Int) (rows rows' : List String)
    (h : rows.Perm rows') :
    dayOfYearCounts minY maxY rows = dayOfYearCounts minY maxY rows' :=
  foldl_overlayStep_perm minY maxY h _

theorem c9_witness :
    dayOfYearCounts 1600 1700 ["05/06/1671", "06/06/1671"] =
      dayOfYearCounts 1600 1700 ["06/06/1671", "05/06/1671"] :=
  c9_perm_invariant 1600 1700 _ _ (List.Perm.swap _ _ _)

/-- The coupled min/max fold decouples into two independent folds. -/
lemma minMaxFold_decouple (l : List Int) (a b : Int) :
    l.foldl
      (fun acc y =>
        match acc with
        | none => some (y, y)
        | some (lo, hi) => some ((if y < lo then y else lo), (if hi < y then y else hi)))
      (some (a, b)) =
    some (l.foldl (fun lo y => if y < lo then y else lo) a,
      l.foldl (fun hi y => if hi < y then y else hi) b) := by
  induction l generalizing a b with
  | nil => rfl
  | cons x l ih => simp only [List.foldl_cons]; exact ih _ _

/-- The running-minimum fold is a lower bound for its seed and every element. -/
lemma foldl_minStep_le (l : List Int) (a : Int) :
    l.foldl (fun lo y => if y < lo then y else lo) a ≤ a ∧
      ∀ y ∈ l, l.foldl (fun lo y => if y < lo then y else lo) a ≤ y := by
  induction l generalizing a with
  | nil => exact ⟨le_refl a, by simp⟩
  | cons x l ih =>
    simp only [List.foldl_cons]
    obtain ⟨h1, h2⟩ := ih (if x < a then x else a)
    refine ⟨le_trans h1 (by split <;> omega), ?_⟩
    intro y hy
    rcases List.mem_cons.mp hy with rfl | hy
    · exact le_trans h1 (by split <;> omega)
    · exact h2 y hy

/-- The running-minimum fold lands on its seed or one of the elements. -/
lemma foldl_minStep_mem (l : List Int) (a : Int) :
    l.foldl (fun lo y => if y < lo then y else lo) a ∈ a :: l := by
  induction l generalizing a with
  | nil => simp
  | cons x l ih =>
    simp only [List.foldl_cons]
    have h := ih (if x < a then x else a)
    rcases List.mem_cons.mp h with h | h
    · rw [h]
      split
      · simp
      · simp
    · simp [List.mem_cons.mpr (Or.inr h)]

/-- The running-maximum fold is an upper bound for its seed and every element. -/
lemma foldl_maxStep_le (l : List Int) (a : Int) :
    a ≤ l.foldl (fun hi y => if hi < y then y else hi) a ∧
      ∀ y ∈ l, y ≤ l.foldl (fun hi y => if hi < y then y else hi) a := by
  induction l generalizing a with
  | nil => exact ⟨le_refl a, by simp⟩
  | cons x l ih =>
    simp only [List.foldl_cons]
    obtain ⟨h1, h2⟩ := ih (if a < x then x else a)
    refine ⟨le_trans (by split <;> omega) h1, ?_⟩
    intro y hy
    rcases List.mem_cons.mp hy with rfl | hy
    · exact le_trans (by split <;> omega) h1
    · exact h2 y hy

/-- The running-maximum fold lands on its seed or one of the elements. -/
lemma foldl_maxStep_mem (l : List Int) (a : Int) :
    l.foldl (fun hi y => if hi < y then y else hi) a ∈ a :: l := by
  induction l generalizing a with
  | nil => simp
  | cons x l ih =>
    simp only [List.foldl_cons]
    have h := ih (if a < x then x else a)
    rcases List.mem_cons.mp h with h | h
    · rw [h]
      split
      · simp
      · simp
    · simp [List.mem_cons.mpr (Or.inr h)]

/-- Folding `bump` counts occurrences on top of the accumulator. -/
lemma foldl_bump_count (l : List Int) : ∀ (f : Int → Nat) (y : Int),
    (l.foldl bump f) y = f y + l.count y := by
  induction l with
  | nil => simp
  | cons x l ih =>
    intro f y
    simp only [List.foldl_cons]
    rw [ih]
    by_cases h : y = x
    · subst h
      simp [bump, List.count_cons]
      omega
    · simp [bump, h, List.count_cons, Ne.symm h]

/-- C6: on a non-empty sequence of (years of) valid normalized dates, the
by-year aggregation of BarChartsView.jsx produces a dense table: its key
sequence is exactly every integer year from the minimum observed year to the
maximum observed year inclusive, and each key maps to the number of input
dates in that year (zero for unobserved years in the range). -/
theorem c6_dense_year_table (ys : List Int) (h : ys ≠ []) :
    ∃ lo hi, minMaxFold ys = some (lo, hi) ∧
      lo ∈ ys ∧ hi ∈ ys ∧ (∀ y ∈ ys, lo ≤ y ∧ y ≤ hi) ∧
      (allYearsTable ys).map Prod.fst = intRangeList lo hi ∧
      ∀ p ∈ allYearsTable ys, p.2 = ys.count p.1 := by
  obtain ⟨y0, l, rfl⟩ := List.exists_cons_of_ne_nil h
  have hmm : minMaxFold (y0 :: l) =
      some (l.foldl (fun lo y => if y < lo then y else lo) y0,
        l.foldl (fun hi y => if hi < y then y else hi) y0) := by
    simp only [minMaxFold, List.foldl_cons]
    exact minMaxFold_decouple l y0 y0
  refine ⟨_, _, hmm, foldl_minStep_mem l y0, foldl_maxStep_mem l y0, ?_, ?_, ?_⟩
  · intro y hy
    rcases List.mem_cons.mp hy with rfl | hy
    · exact ⟨(foldl_minStep_le l y).1, (foldl_maxStep_le l y).1⟩
    · exact ⟨(foldl_minStep_le l y0).2 y hy, (foldl_maxStep_le l y0).2 y hy⟩
  · simp only [allYearsTable, hmm, List.map_map]
    rw [show (Prod.fst ∘ fun y => (y, yearCountsFn (y0 :: l) y)) = id from rfl, List.map_id]
  · intro p hp
    simp only [allYearsTable, hmm, List.mem_map] at hp
    obtain ⟨y, _, rfl⟩ := hp
    simp only [yearCountsFn]
    rw [foldl_bump_count]
    simp

theorem c6_witness :
    (∃ lo hi, minMaxFold [1999, 2001] = some (lo, hi) ∧
      lo ∈ [(1999 : Int), 2001] ∧ hi ∈ [(1999 : Int), 2001] ∧
      (∀ y ∈ [(1999 : Int), 2001], lo ≤ y ∧ y ≤ hi) ∧
      (allYearsTable [1999, 2001]).map Prod.fst = intRangeList lo hi ∧
      ∀ p ∈ allYearsTable [1999, 2001], p.2 = List.count p.1 [1999, 2001]) ∧
    allYearsTable [1999, 2001] = [(1999, 1), (2000, 0), (2001, 1)] :=
  ⟨c6_dense_year_table [1999, 2001] (by decide), by decide⟩

/-! ## Digit-string infrastructure for the shape claims -/

/-- Character of a decimal digit value. -/
def dch (n : Nat) : Char := Char.ofNat (48 + n)

lemma dch_digit {n : Nat} (h : n < 10) : isDigitCh (dch n) = true := by
  interval_cases n <;> decide

lemma dch_not_space {n : Nat} (h : n < 10) : isSpaceChar (dch n) = false := by
  interval_cases n <;> decide

lemma dch_ne_qmark {n : Nat} (h : n < 10) : dch n ≠ '?' := by
  interval_cases n <;> decide

lemma dch_ne_slash {n : Nat} (h : n < 10) : dch n ≠ '/' := by
  interval_cases n <;> decide

lemma dch_ne_minus {n : Nat} (h : n < 10) : dch n ≠ '-' := by
  interval_cases n <;> decide

lemma dch_ne_plus {n : Nat} (h : n < 10) : dch n ≠ '+' := by
  interval_cases n <;> decide

lemma dch_ne_xlow {n : Nat} (h : n < 10) : dch n ≠ 'x' := by
  interval_cases n <;> decide

lemma dch_ne_xup {n : Nat} (h : n < 10) : dch n ≠ 'X' := by
  interval_cases n <;> decide

lemma dch_val {n : Nat} (h : n < 10) : digitVal (dch n) = n := by
  interval_cases n <;> decide

/-- Trimming is the identity on strings with no whitespace anywhere. -/
lemma jsTrim_eq_self (l : List Char) (h : ∀ c ∈ l, isSpaceChar c = false) :
    jsTrim l = l := by
  have hdrop : ∀ m : List Char, (∀ c ∈ m, isSpaceChar c = false) → m.dropWhile isSpaceChar = m := by
    intro m hm
    cases m with
    | nil => rfl
    | cons a t => exact List.dropWhile_cons_of_neg (by simp [hm a (by simp)])
  unfold jsTrim
  rw [hdrop _ h, hdrop, List.reverse_reverse]
  intro c hc
  exact h c (List.mem_reverse.mp hc)

/-- A character different from every element of a list is not a member. -/
lemma not_mem_of_all_ne (x : Char) (l : List Char) (h : ∀ c ∈ l, c ≠ x) : x ∉ l :=
  fun hx => h x hx rfl

/-- `takeWhile` keeps a list that is all digits. -/
lemma takeWhile_digits (l : List Char) (h : ∀ c ∈ l, isDigitCh c = true) :
    l.takeWhile isDigitCh = l := by
  induction l with
  | nil => rfl
  | cons a t ih =>
    rw [List.takeWhile_cons_of_pos (h a (by simp))]
    rw [ih (fun c hc => h c (by simp [hc]))]

/-- `parseInt` of a two-digit string. -/
lemma parseIntJS_dd {x y : Nat} (hx : x < 10) (hy : y < 10) :
    parseIntJS [dch x, dch y] = some ((10 * x + y : Nat) : Int) := by
  unfold parseIntJS
  rw [List.dropWhile_cons_of_neg (by simp [dch_not_space hx])]
  simp only [if_neg (dch_ne_minus hx), if_neg (dch_ne_plus hx)]
  unfold parseIntDec
  rw [if_neg (by simp [hexMarked, dch_ne_xlow hy, dch_ne_xup hy])]
  rw [takeWhile_digits _ (by
    intro c hc
    fin_cases hc
    · exact dch_digit hx
    · exact dch_digit hy)]
  rw [if_neg (by simp)]
  simp [digitsVal, dch_val hx, dch_val hy]

/-- `parseInt` of a four-digit string. -/
lemma parseIntJS_dddd {p q r t : Nat} (hp : p < 10) (hq : q < 10) (hr : r < 10)
    (ht : t < 10) :
    parseIntJS [dch p, dch q, dch r, dch t] =
      some ((((p * 10 + q) * 10 + r) * 10 + t : Nat) : Int) := by
  unfold parseIntJS
  rw [List.dropWhile_cons_of_neg (by simp [dch_not_space hp])]
  simp only [if_neg (dch_ne_minus hp), if_neg (dch_ne_plus hp)]
  unfold parseIntDec
  rw [if_neg (by simp [hexMarked, dch_ne_xlow hq, dch_ne_xup hq])]
  rw [takeWhile_digits _ (by
    intro c hc
    fin_cases hc
    · exact dch_digit hp
    · exact dch_digit hq
    · exact dch_digit hr
    · exact dch_digit ht)]
  rw [if_neg (by simp)]
  simp [digitsVal, dch_val hp, dch_val hq, dch_val hr, dch_val ht]
  ring

/-- `parseInt` of the expanded two-digit-year string `16YY`. -/
lemma parseIntJS_y16 {g h : Nat} (hg : g < 10) (hh : h < 10) :
    parseIntJS ['1', '6', dch g, dch h] = some ((1600 + (10 * g + h) : Nat) : Int) := by
  unfold parseIntJS
  rw [List.dropWhile_cons_of_neg (by decide)]
  simp only [if_neg (show ('1' : Char) ≠ '-' by decide), if_neg (show ('1' : Char) ≠ '+' by decide)]
  unfold parseIntDec
  rw [if_neg (by simp [hexMarked])]
  rw [takeWhile_digits _ (by
    intro c hc
    fin_cases hc
    · decide
    · decide
    · exact dch_digit hg
    · exact dch_digit hh)]
  rw [if_neg (by simp)]
  simp [digitsVal, dch_val hg, dch_val hh,
    show digitVal '1' = 1 from rfl, show digitVal '6' = 6 from rfl]
  ring

/-- The modelled `Date` constructor stays far inside the `TimeClip` range for
every year up to 9999, month argument in -1..98 and day argument in 0..99 —
exactly the values the parsing pipeline can feed it on digit-shaped inputs. -/
lemma jsDateValid_of_small (y m0 d : Int) (hy0 : 0 ≤ y) (hy1 : y ≤ 9999)
    (hm0 : -1 ≤ m0) (hm1 : m0 ≤ 98) (hd0 : 0 ≤ d) (hd1 : d ≤ 99) :
    jsDateValid y m0 d = true := by
  unfold jsDateValid jsMakeDay daysFromCivil jsYearAdjust
  simp only [decide_eq_true_eq, Bool.and_eq_true]
  split_ifs <;> omega

lemma comps3_fst (A B C : List Char) : [A, B, C][0]? = some A := rfl

lemma comps3_snd (A B C : List Char) : [A, B, C][1]? = some B := rfl

lemma comps3_thd (A B C : List Char) : [A, B, C][2]? = some C := rfl

/-- C4: every trimmed input of the two-digit-year shape `DD/MM/YY` is expanded
by prefixing the digits `16` to the year — the resulting year is 16YY, never
the current century; in particular `normalize "01/01/70"` is year 1670 (see the
witness). -/
theorem c4_short_year_expansion (s : String) (a b e f g h : Nat)
    (ha : a < 10) (hb : b < 10) (he : e < 10) (hf : f < 10) (hg : g < 10) (hh : h < 10)
    (hs : s.data = [dch a, dch b, '/', dch e, dch f, '/', dch g, dch h]) :
    normalize s = .ok ⟨((1600 + (10 * g + h) : Nat) : Int), ((10 * e + f : Nat) : Int),
      ((10 * a + b : Nat) : Int),
      ['1', '6', dch g, dch h, '-', dch e, dch f, '-', dch a, dch b]⟩ := by
  have htrim : jsTrim [dch a, dch b, '/', dch e, dch f, '/', dch g, dch h] =
      [dch a, dch b, '/', dch e, dch f, '/', dch g, dch h] := by
    apply jsTrim_eq_self
    intro c hc
    fin_cases hc <;>
      first
        | exact dch_not_space ha
        | exact dch_not_space hb
        | exact dch_not_space he
        | exact dch_not_space hf
        | exact dch_not_space hg
        | exact dch_not_space hh
        | decide
  have hq : ('?' : Char) ∉ [dch a, dch b, '/', dch e, dch f, '/', dch g, dch h] := by
    apply not_mem_of_all_ne
    intro c hc
    fin_cases hc <;>
      first
        | exact dch_ne_qmark ha
        | exact dch_ne_qmark hb
        | exact dch_ne_qmark he
        | exact dch_ne_qmark hf
        | exact dch_ne_qmark hg
        | exact dch_ne_qmark hh
        | decide
  have hcond : ¬ ([dch a, dch b, '/', dch e, dch f, '/', dch g, dch h] = ([] : List Char) ∨
      ('?' : Char) ∈ [dch a, dch b, '/', dch e, dch f, '/', dch g, dch h]) := by
    rintro (hx | hx)
    · exact List.cons_ne_nil _ _ hx
    · exact hq hx
  have hclean : cleanDate [dch a, dch b, '/', dch e, dch f, '/', dch g, dch h] =
      [dch a, dch b, '/', dch e, dch f, '/', dch g, dch h] := by
    simp [cleanDate, matchRunTogether]
  have hshort : shortYearComponents [dch a, dch b, '/', dch e, dch f, '/', dch g, dch h] =
      some ([dch a, dch b], [dch e, dch f], ['1', '6', dch g, dch h]) := by
    simp [shortYearComponents, dch_digit ha, dch_digit hb, dch_digit he, dch_digit hf,
      dch_digit hg, dch_digit hh]
  unfold normalize parseRow
  rw [hs, htrim, if_neg hcond, hclean]
  simp only [dateComponents, hshort, comps3_fst, comps3_snd, comps3_thd]
  rw [parseIntJS_dd ha hb, parseIntJS_dd he hf, parseIntJS_y16 hg hh]
  simp only []
  rw [if_pos (jsDateValid_of_small _ _ _ (by positivity) (by push_cast; omega)
    (by push_cast; omega) (by push_cast; omega) (by positivity) (by push_cast; omega))]
  simp [isoDateOf, padStart2]

theorem c4_witness :
    normalize "01/01/70" = .ok ⟨((1600 + (10 * 7 + 0) : Nat) : Int), ((10 * 0 + 1 : Nat) : Int),
      ((10 * 0 + 1 : Nat) : Int),
      ['1', '6', dch 7, dch 0, '-', dch 0, dch 1, '-', dch 0, dch 1]⟩ :=
  c4_short_year_expansion "01/01/70" 0 1 0 1 7 0 (by decide) (by decide) (by decide)
    (by decide) (by decide) (by decide) (by decide)

/-- The repair regex does not match anywhere in a well-formed zero-padded
`DD/MM/YYYY` string, so the repair leaves it unchanged: no run of two digits,
a slash and six digits occurs in `dd/mm/yyyy`. -/
lemma cleanDate_wellformed {a b e f g h i j : Nat}
    (ha : a < 10) (hb : b < 10) (he : e < 10) (hf : f < 10) (hg : g < 10) (hh : h < 10)
    (hi : i < 10) (hj : j < 10) :
    cleanDate [dch a, dch b, '/', dch e, dch f, '/', dch g, dch h, dch i, dch j] =
      [dch a, dch b, '/', dch e, dch f, '/', dch g, dch h, dch i, dch j] := by
  simp [cleanDate, matchRunTogether, show isDigitCh '/' = false from rfl]

/-- Splitting the well-formed `DD/MM/YYYY` shape on the separator. -/
lemma splitOnChar_wellformed {a b e f g h i j : Nat}
    (ha : a < 10) (hb : b < 10) (he : e < 10) (hf : f < 10) (hg : g < 10) (hh : h < 10)
    (hi : i < 10) (hj : j < 10) :
    splitOnChar '/' [dch a, dch b, '/', dch e, dch f, '/', dch g, dch h, dch i, dch j] =
      [[dch a, dch b], [dch e, dch f], [dch g, dch h, dch i, dch j]] := by
  simp [splitOnChar, dch_ne_slash ha, dch_ne_slash hb, dch_ne_slash he, dch_ne_slash hf,
    dch_ne_slash hg, dch_ne_slash hh, dch_ne_slash hi, dch_ne_slash hj]

/-- Component extraction on the well-formed `DD/MM/YYYY` shape: the short-year
test fails (wrong length) and the string splits into its three components. -/
lemma dateComponents_wellformed {a b e f g h i j : Nat}
    (ha : a < 10) (hb : b < 10) (he : e < 10) (hf : f < 10) (hg : g < 10) (hh : h < 10)
    (hi : i < 10) (hj : j < 10) :
    dateComponents [dch a, dch b, '/', dch e, dch f, '/', dch g, dch h, dch i, dch j] =
      [[dch a, dch b], [dch e, dch f], [dch g, dch h, dch i, dch j]] := by
  unfold dateComponents
  rw [show shortYearComponents
      [dch a, dch b, '/', dch e, dch f, '/', dch g, dch h, dch i, dch j] = none from rfl]
  exact splitOnChar_wellformed ha hb he hf hg hh hi hj

/-- C5: a malformed run-together input (two-digit day, separator, two-digit
month, then a four-digit year with no separator) is repaired by inserting the
missing separator before parsing, and the repair leaves already well-formed
`DD/MM/YYYY` strings unchanged; `normalize "02/061671"` yields year 1671,
month 6, day 2 (see the witness). -/
theorem c5_run_together_repair (s : String) (a b e f g h i j : Nat)
    (ha : a < 10) (hb : b < 10) (he : e < 10) (hf : f < 10) (hg : g < 10) (hh : h < 10)
    (hi : i < 10) (hj : j < 10)
    (hs : s.data = [dch a, dch b, '/', dch e, dch f, dch g, dch h, dch i, dch j]) :
    cleanDate s.data = [dch a, dch b, '/', dch e, dch f, '/', dch g, dch h, dch i, dch j] ∧
    normalize s = .ok ⟨((((g * 10 + h) * 10 + i) * 10 + j : Nat) : Int),
      ((10 * e + f : Nat) : Int), ((10 * a + b : Nat) : Int),
      [dch g, dch h, dch i, dch j, '-', dch e, dch f, '-', dch a, dch b]⟩ ∧
    (∀ a' b' e' f' g' h' i' j' : Nat, a' < 10 → b' < 10 → e' < 10 → f' < 10 →
      g' < 10 → h' < 10 → i' < 10 → j' < 10 →
      cleanDate [dch a', dch b', '/', dch e', dch f', '/', dch g', dch h', dch i', dch j'] =
        [dch a', dch b', '/', dch e', dch f', '/', dch g', dch h', dch i', dch j']) := by
  have hclean : cleanDate [dch a, dch b, '/', dch e, dch f, dch g, dch h, dch i, dch j] =
      [dch a, dch b, '/', dch e, dch f, '/', dch g, dch h, dch i, dch j] := by
    simp [cleanDate, matchRunTogether, dch_digit ha, dch_digit hb, dch_digit he,
      dch_digit hf, dch_digit hg, dch_digit hh, dch_digit hi, dch_digit hj]
  refine ⟨by rw [hs]; exact hclean, ?_, ?_⟩
  · have htrim : jsTrim [dch a, dch b, '/', dch e, dch f, dch g, dch h, dch i, dch j] =
        [dch a, dch b, '/', dch e, dch f, dch g, dch h, dch i, dch j] := by
      apply jsTrim_eq_self
      intro c hc
      fin_cases hc <;>
        first
          | exact dch_not_space ha
          | exact dch_not_space hb
          | exact dch_not_space he
          | exact dch_not_space hf
          | exact dch_not_space hg
          | exact dch_not_space hh
          | exact dch_not_space hi
          | exact dch_not_space hj
          | decide
    have hcond : ¬ ([dch a, dch b, '/', dch e, dch f, dch g, dch h, dch i, dch j] =
        ([] : List Char) ∨
        ('?' : Char) ∈ [dch a, dch b, '/', dch e, dch f, dch g, dch h, dch i, dch j]) := by
      rintro (hx | hx)
      · exact List.cons_ne_nil _ _ hx
      · refine not_mem_of_all_ne '?' _ ?_ hx
        intro c hc
        fin_cases hc <;>
          first
            | exact dch_ne_qmark ha
            | exact dch_ne_qmark hb
            | exact dch_ne_qmark he
            | exact dch_ne_qmark hf
            | exact dch_ne_qmark hg
            | exact dch_ne_qmark hh
            | exact dch_ne_qmark hi
            | exact dch_ne_qmark hj
            | decide
    unfold normalize parseRow
    rw [hs, htrim, if_neg hcond, hclean, dateComponents_wellformed ha hb he hf hg hh hi hj]
    simp only [comps3_fst, comps3_snd, comps3_thd]
    rw [parseIntJS_dd ha hb, parseIntJS_dd he hf, parseIntJS_dddd hg hh hi hj]
    simp only []
    rw [if_pos (jsDateValid_of_small _ _ _ (by positivity) (by push_cast; omega)
      (by push_cast; omega) (by push_cast; omega) (by positivity) (by push_cast; omega))]
    simp [isoDateOf, padStart2]
  · intro a' b' e' f' g' h' i' j' ha' hb' he' hf' hg' hh' hi' hj'
    exact cleanDate_wellformed ha' hb' he' hf' hg' hh' hi' hj'

theorem c5_witness :
    cleanDate "02/061671".data = [dch 0, dch 2, '/', dch 0, dch 6, '/', dch 1, dch 6, dch 7, dch 1] ∧
    normalize "02/061671" = .ok ⟨((((1 * 10 + 6) * 10 + 7) * 10 + 1 : Nat) : Int),
      ((10 * 0 + 6 : Nat) : Int), ((10 * 0 + 2 : Nat) : Int),
      [dch 1, dch 6, dch 7, dch 1, '-', dch 0, dch 6, '-', dch 0, dch 2]⟩ ∧
    (∀ a' b' e' f' g' h' i' j' : Nat, a' < 10 → b' < 10 → e' < 10 → f' < 10 →
      g' < 10 → h' < 10 → i' < 10 → j' < 10 →
      cleanDate [dch a', dch b', '/', dch e', dch f', '/', dch g', dch h', dch i', dch j'] =
        [dch a', dch b', '/', dch e', dch f', '/', dch g', dch h', dch i', dch j']) :=
  c5_run_together_repair "02/061671" 0 2 0 6 1 6 7 1 (by decide) (by decide) (by decide)
    (by decide) (by decide) (by decide) (by decide) (by decide) (by decide)

/-- The spec's notion of a real calendar date (used as the hypothesis of the
round-trip claim): day and month in range for the proleptic-Gregorian month
lengths. -/
def isValidCalendarDate (y m d : Nat) : Bool :=
  decide (1 ≤ m) && decide (m ≤ 12) && decide (1 ≤ d) &&
    decide ((d : Int) ≤ daysInMonth (y : Int) (m : Int))

/-- Zero-padded `DD/MM/YYYY` formatting of a NormalizedDate's fields (the
spec's reformatting direction of the round-trip). -/
def formatDDMMYYYY (d m y : Nat) : List Char :=
  [dch (d / 10), dch (d % 10), '/', dch (m / 10), dch (m % 10), '/',
    dch (y / 1000), dch (y / 100 % 10), dch (y / 10 % 10), dch (y % 10)]

lemma daysInMonth_le_31 (y m : Int) : daysInMonth y m ≤ 31 := by
  unfold daysInMonth
  split_ifs <;> omega

/-- Full evaluation of `normalize` on the well-formed `DD/MM/YYYY` shape. -/
lemma normalize_wellformed (s : String) (a b e f g h i j : Nat)
    (ha : a < 10) (hb : b < 10) (he : e < 10) (hf : f < 10) (hg : g < 10) (hh : h < 10)
    (hi : i < 10) (hj : j < 10)
    (hs : s.data = [dch a, dch b, '/', dch e, dch f, '/', dch g, dch h, dch i, dch j]) :
    normalize s = .ok ⟨((((g * 10 + h) * 10 + i) * 10 + j : Nat) : Int),
      ((10 * e + f : Nat) : Int), ((10 * a + b : Nat) : Int),
      [dch g, dch h, dch i, dch j, '-', dch e, dch f, '-', dch a, dch b]⟩ := by
  have htrim : jsTrim [dch a, dch b, '/', dch e, dch f, '/', dch g, dch h, dch i, dch j] =
      [dch a, dch b, '/', dch e, dch f, '/', dch g, dch h, dch i, dch j] := by
    apply jsTrim_eq_self
    intro c hc
    fin_cases hc <;>
      first
        | exact dch_not_space ha
        | exact dch_not_space hb
        | exact dch_not_space he
        | exact dch_not_space hf
        | exact dch_not_space hg
        | exact dch_not_space hh
        | exact dch_not_space hi
        | exact dch_not_space hj
        | decide
  have hcond : ¬ ([dch a, dch b, '/', dch e, dch f, '/', dch g, dch h, dch i, dch j] =
      ([] : List Char) ∨
      ('?' : Char) ∈ [dch a, dch b, '/', dch e, dch f, '/', dch g, dch h, dch i, dch j]) := by
    rintro (hx | hx)
    · exact List.cons_ne_nil _ _ hx
    · refine not_mem_of_all_ne '?' _ ?_ hx
      intro c hc
      fin_cases hc <;>
        first
          | exact dch_ne_qmark ha
          | exact dch_ne_qmark hb
          | exact dch_ne_qmark he
          | exact dch_ne_qmark hf
          | exact dch_ne_qmark hg
          | exact dch_ne_qmark hh
          | exact dch_ne_qmark hi
          | exact dch_ne_qmark hj
          | decide
  unfold normalize parseRow
  rw [hs, htrim, if_neg hcond, cleanDate_wellformed ha hb he hf hg hh hi hj,
    dateComponents_wellformed ha hb he hf hg hh hi hj]
  simp only [comps3_fst, comps3_snd, comps3_thd]
  rw [parseIntJS_dd ha hb, parseIntJS_dd he hf, parseIntJS_dddd hg hh hi hj]
  simp only []
  rw [if_pos (jsDateValid_of_small _ _ _ (by positivity) (by push_cast; omega)
    (by push_cast; omega) (by push_cast; omega) (by positivity) (by push_cast; omega))]
  simp [isoDateOf, padStart2]

/-- C3: every strict zero-padded `DD/MM/YYYY` string denoting a valid calendar
date is accepted by `normalize`, and reformatting the returned NormalizedDate
back into zero-padded `DD/MM/YYYY` form reproduces the input string exactly. -/
theorem c3_roundtrip (s : String) (y m d : Nat) (hy : y ≤ 9999)
    (hv : isValidCalendarDate y m d = true)
    (hs : s.data = formatDDMMYYYY d m y) :
    ∃ nd : NormalizedDate, normalize s = .ok nd ∧
      nd.year = (y : Int) ∧ nd.month = (m : Int) ∧ nd.day = (d : Int) ∧
      formatDDMMYYYY nd.day.toNat nd.month.toNat nd.year.toNat = s.data := by
  simp only [isValidCalendarDate, Bool.and_eq_true, decide_eq_true_eq] at hv
  obtain ⟨⟨⟨hm1, hm2⟩, hd1⟩, hdm⟩ := hv
  have hd31 : d ≤ 31 := by
    have h31 := daysInMonth_le_31 (y : Int) (m : Int)
    omega
  have hn := normalize_wellformed s (d / 10) (d % 10) (m / 10) (m % 10)
    (y / 1000) (y / 100 % 10) (y / 10 % 10) (y % 10)
    (by omega) (by omega) (by omega) (by omega) (by omega) (by omega) (by omega) (by omega)
    (by rw [hs]; rfl)
  refine ⟨_, hn, ?_, ?_, ?_, ?_⟩
  · show ((((y / 1000 * 10 + y / 100 % 10) * 10 + y / 10 % 10) * 10 + y % 10 : Nat) : Int) =
      (y : Int)
    push_cast
    omega
  · show ((10 * (m / 10) + m % 10 : Nat) : Int) = (m : Int)
    omega
  · show ((10 * (d / 10) + d % 10 : Nat) : Int) = (d : Int)
    omega
  · show formatDDMMYYYY ((10 * (d / 10) + d % 10 : Nat) : Int).toNat
      ((10 * (m / 10) + m % 10 : Nat) : Int).toNat
      ((((y / 1000 * 10 + y / 100 % 10) * 10 + y / 10 % 10) * 10 + y % 10 : Nat) : Int).toNat =
      s.data
    rw [hs]
    have h1 : ((10 * (d / 10) + d % 10 : Nat) : Int).toNat = d := by omega
    have h2 : ((10 * (m / 10) + m % 10 : Nat) : Int).toNat = m := by omega
    have h3 : ((((y / 1000 * 10 + y / 100 % 10) * 10 + y / 10 % 10) * 10 + y % 10 : Nat) :
        Int).toNat = y := by omega
    rw [h1, h2, h3]

theorem c3_witness :
    ∃ nd : NormalizedDate, normalize "05/06/1671" = .ok nd ∧
      nd.year = (1671 : Int) ∧ nd.month = (6 : Int) ∧ nd.day = (5 : Int) ∧
      formatDDMMYYYY nd.day.toNat nd.month.toNat nd.year.toNat = "05/06/1671".data :=
  c3_roundtrip "05/06/1671" 1671 6 5 (by norm_num) (by decide) (by decide)

/-- One color-map step stores something at `k` exactly when the accumulator
already did, or the entry parses to a valid date of the bucket year whose day
index is `k`. -/
lemma colorMapStep_ne_none (Y : Int) (acc : Int → Option (List Char))
    (e : List Char × List Char) (k : Int) :
    colorMapStep Y acc e k ≠ none ↔
      (acc k ≠ none ∨ ∃ m d, jsParseISO e.1 = some (Y, m, d) ∧
        k = getDayOfYearCal (daysFromCivil Y m d)) := by
  unfold colorMapStep
  cases hp : jsParseISO e.1 with
  | none => simp [hp]
  | some t =>
    obtain ⟨y, m, d⟩ := t
    by_cases hy : y = Y
    · subst hy
      by_cases hk : k = getDayOfYearCal (daysFromCivil y m d)
      · simp [hp, hk]
        exact Or.inr ⟨m, d, ⟨rfl, rfl⟩, rfl⟩
      · simp [hp, hk]
    · simp [hp, hy]

/-- Fold version of `colorMapStep_ne_none` over a whole entry list. -/
lemma foldl_colorMapStep_ne_none (Y : Int) (entries : List (List Char × List Char)) :
    ∀ (acc : Int → Option (List Char)) (k : Int),
      (entries.foldl (colorMapStep Y) acc) k ≠ none ↔
        (acc k ≠ none ∨ ∃ e ∈ entries, ∃ m d, jsParseISO e.1 = some (Y, m, d) ∧
          k = getDayOfYearCal (daysFromCivil Y m d)) := by
  induction entries with
  | nil => simp
  | cons e es ih =>
    intro acc k
    simp only [List.foldl_cons]
    rw [ih, colorMapStep_ne_none]
    simp only [List.mem_cons]
    constructor
    · rintro ((h | ⟨m, d, hmd⟩) | ⟨e', he', h⟩)
      · exact Or.inl h
      · exact Or.inr ⟨e, Or.inl rfl, m, d, hmd⟩
      · exact Or.inr ⟨e', Or.inr he', h⟩
    · rintro (h | ⟨e', (rfl | he'), h⟩)
      · exact Or.inl (Or.inl h)
      · exact Or.inl (Or.inr h)
      · exact Or.inr ⟨e', he', h⟩

/-- C7: in the per-year color tables of YearCalendar.jsx, an annotation entry
produces a colored cell if and only if its date string parses to a valid date
whose year equals the table's year key; an entry parsing to a different year
(or failing to parse) is silently dropped — no cell, no error.  Stated both as
an exact characterization of the populated cells over arbitrary entry lists and
as the per-entry admit/drop equations. -/
theorem c7_year_match (Y : Int) (entries : List (List Char × List Char)) (k : Int) :
    (colorMapFor Y entries k ≠ none ↔
      ∃ e ∈ entries, ∃ m d, jsParseISO e.1 = some (Y, m, d) ∧
        k = getDayOfYearCal (daysFromCivil Y m d)) ∧
    (∀ s c y m d, jsParseISO s = some (y, m, d) → y = Y →
      colorMapFor Y [(s, c)] (getDayOfYearCal (daysFromCivil y m d)) = some c) ∧
    (∀ s c y m d, jsParseISO s = some (y, m, d) → y ≠ Y →
      colorMapFor Y [(s, c)] = fun _ => none) := by
  refine ⟨?_, ?_, ?_⟩
  · rw [colorMapFor, foldl_colorMapStep_ne_none]
    simp
  · intro s c y m d hp hy
    subst hy
    simp [colorMapFor, colorMapStep, hp]
  · intro s c y m d hp hy
    simp [colorMapFor, colorMapStep, hp, hy]

theorem c7_witness :
    colorMapFor 2023 [("2024-01-05".data, "red".data)] = fun _ => none :=
  (c7_year_match 2023 [("2024-01-05".data, "red".data)] 0).2.2 "2024-01-05".data "red".data
    2024 1 5 (by decide) (by decide)

end Kirkwall
